import Mathlib

/-!
Verification of the koe-note utility scripts.

`CreateTestAudio` embeds the waveform-synthesis core of
`create_test_audio.py` (lines 16-27): a sine wave of fixed frequency is
sampled on a `numpy.linspace` grid, scaled by an amplitude factor, and a
linear fade-in / fade-out is applied in place to the first and last
`fade_samples` entries.  Python floats are idealised as real numbers;
`int(...)` is truncation toward zero; `numpy` in-place slice
multiplication is modelled exactly, including the broadcast failure that
`a[-0:] *= linspace(1, 0, 0)` raises, by returning `Option` (`none` =
a `ValueError` escapes).

`FileOps` embeds the filesystem / subprocess part of the same function
(lines 29-70): the temporary WAV write, the ffmpeg invocation with its
`try/except/finally` structure, and the WAV-copy fallback.  The outcome
of the external encoder call and of the two fallible writes is an
explicit input; the filesystem is the list of existing paths.

`MediumConfigs` embeds `change_config_version` from
`test_medium_configs.py` (lines 49-58).
-/

namespace CreateTestAudio

/-- Python `int(x)` on a float: truncation toward zero. -/
noncomputable def pyInt (x : ℝ) : ℤ := if 0 ≤ x then ⌊x⌋ else ⌈x⌉

/-- `numpy.linspace(a, b, num)` with the default `endpoint=True`:
`num` evenly spaced values from `a` to `b` inclusive.  For `num = 1`
numpy returns `[a]`, which the formula below also yields since division
by zero is zero in Lean. -/
noncomputable def linspace (a b : ℝ) (num : ℕ) : List ℝ :=
  (List.range num).map fun (i : ℕ) => a + (b - a) * (i : ℝ) / ((num : ℝ) - 1)

/-- `int(sample_rate * duration)`, the sample count of line 21. -/
noncomputable def nSamples (sample_rate : ℕ) (duration : ℝ) : ℕ :=
  (pyInt ((sample_rate : ℝ) * duration)).toNat

/-- `fade_samples = int(fade_seconds * sample_rate)`, line 25
(with `fade_seconds = 0.1` in the script). -/
noncomputable def fadeSamples (fade_seconds : ℝ) (sample_rate : ℕ) : ℕ :=
  (pyInt (fade_seconds * (sample_rate : ℝ))).toNat

/-- Lines 21-22: `t = np.linspace(0, duration, int(sample_rate*duration))`
and `audio_data = amplitude * np.sin(2 * np.pi * frequency * t)`. -/
noncomputable def rawAudio (sample_rate : ℕ) (duration frequency amplitude : ℝ) : List ℝ :=
  (linspace 0 duration (nSamples sample_rate duration)).map
    fun x => amplitude * Real.sin (2 * Real.pi * frequency * x)

/-- The list produced by `audio_data[:f] *= np.linspace(0, 1, f)` when the
broadcast is legal: the first `f` entries multiplied pointwise by the ramp,
the rest untouched. -/
noncomputable def fadeInList (xs : List ℝ) (f : ℕ) : List ℝ :=
  (xs.take f).zipWith (fun a r => a * r) (linspace 0 1 f) ++ xs.drop f

/-- Line 26: `audio_data[:fade_samples] *= np.linspace(0, 1, fade_samples)`.
The slice `xs[:f]` has length `min f n`; the in-place multiply requires the
ramp length `f` to equal the slice length, or to be `1` (numpy broadcast);
otherwise a `ValueError` escapes (`none`). -/
noncomputable def fadeIn (xs : List ℝ) (f : ℕ) : Option (List ℝ) :=
  if f = min f xs.length then
    some (fadeInList xs f)
  else if f = 1 then
    some xs
  else
    none

/-- The list produced by `audio_data[-f:] *= np.linspace(1, 0, f)` when
`0 < f ≤ xs.length`: the last `f` entries multiplied pointwise by the ramp. -/
noncomputable def fadeOutList (xs : List ℝ) (f : ℕ) : List ℝ :=
  xs.take (xs.length - f) ++
    (xs.drop (xs.length - f)).zipWith (fun a r => a * r) (linspace 1 0 f)

/-- Line 27: `audio_data[-fade_samples:] *= np.linspace(1, 0, fade_samples)`.
For `f = 0` the slice `xs[-0:]` is `xs[0:]`, the whole list, so the start
index is `0`; otherwise it is `n - min f n`.  The multiply again requires
the ramp length `f` to equal the slice length, or to be `1`. -/
noncomputable def fadeOut (xs : List ℝ) (f : ℕ) : Option (List ℝ) :=
  let start := if f = 0 then 0 else xs.length - min f xs.length
  if xs.length - start = f then
    some (xs.take start ++ (xs.drop start).zipWith (fun a r => a * r) (linspace 1 0 f))
  else if f = 1 then
    some xs
  else
    none

/-- Lines 21-27 of `create_test_audio.py`, generalised over the five
parameters the spec names (the script hard-codes `44100`, `5.0`, `440`,
`0.3`, `0.1`).  `none` models a `ValueError` escaping from the numpy
slice multiplications. -/
noncomputable def synthSamples (sample_rate : ℕ)
    (duration frequency amplitude fade_seconds : ℝ) : Option (List ℝ) :=
  (fadeIn (rawAudio sample_rate duration frequency amplitude)
      (fadeSamples fade_seconds sample_rate)).bind
    fun a => fadeOut a (fadeSamples fade_seconds sample_rate)

/-- The exact parameter set hard-coded in `create_test_audio`. -/
noncomputable def scriptSamples : Option (List ℝ) :=
  synthSamples 44100 5.0 440 0.3 0.1

end CreateTestAudio

namespace FileOps

/-- Line 30: the hard-coded output directory. -/
def testDir : String := "D:/work/voise-encoder/test-audio"

/-- Line 39: the WebM output path handed to ffmpeg. -/
def webmPath : String := testDir ++ "/test_audio_440hz_5sec.webm"

/-- Line 61: the WAV fallback path used when ffmpeg is missing. -/
def wavPath : String := testDir ++ "/test_audio_440hz_5sec.wav"

/-- Create a file: the filesystem is the list of paths that exist. -/
def createFile (p : String) (fs : List String) : List String :=
  if p ∈ fs then fs else p :: fs

/-- Line 70: `Path(p).unlink(missing_ok=True)`. -/
def unlinkFile (p : String) (fs : List String) : List String :=
  fs.erase p

/-- How the fallible external steps of `create_test_audio` turn out in a
given run: the temporary `sf.write` (line 35), the ffmpeg subprocess
(lines 42-48, succeeding, exiting non-zero, or absent), and the fallback
copy write (lines 62-63) taken when ffmpeg is absent. -/
inductive RunEvent where
  | tempWriteFails
  | encoderSuccess
  | encoderNonZeroExit
  | encoderMissingCopyOk
  | encoderMissingCopyFails
deriving DecidableEq

/-- How the call ends: a normal `return` (with Python's `None` as `none`),
or an exception propagating to the caller. -/
inductive Outcome where
  | ret (value : Option String)
  | raised
deriving DecidableEq

/-- Lines 29-70 of `create_test_audio.py`: `tempfile.NamedTemporaryFile`
creates the temporary WAV file (line 34) and `sf.write` fills it (line 35),
both before the `try` block, so a failing temporary write propagates with
the file left on disk and no cleanup run.  Inside `try`, ffmpeg converts to
WebM and its path is returned (lines 42-52); on `CalledProcessError` the
function returns `None` (lines 54-56); on `FileNotFoundError` the WAV is
copied beside the WebM target and that copy's path is returned (lines
57-66), `open(wav_path, 'wb')` creating the copy before a failing
`dst.write` would propagate; the `finally` (lines 68-70) unlinks the
temporary file on every path that reaches the `try` block. -/
def create_test_audio_files (ev : RunEvent) (tempWavPath : String)
    (fs : List String) : Outcome × List String :=
  let fs1 := createFile tempWavPath fs
  match ev with
  | .tempWriteFails => (.raised, fs1)
  | .encoderSuccess =>
      (.ret (some webmPath), unlinkFile tempWavPath (createFile webmPath fs1))
  | .encoderNonZeroExit =>
      (.ret none, unlinkFile tempWavPath fs1)
  | .encoderMissingCopyOk =>
      (.ret (some wavPath), unlinkFile tempWavPath (createFile wavPath fs1))
  | .encoderMissingCopyFails =>
      (.raised, unlinkFile tempWavPath (createFile wavPath fs1))

end FileOps

namespace MediumConfigs

/-- The state `change_config_version` could conceivably touch: the files on
disk (path paired with content) and the `CURRENT_MEDIUM_CONFIG_VERSION`
constant of `whisper_server.config`. -/
structure SysState where
  files : List (String × String)
  currentMediumConfigVersion : Int
deriving DecidableEq

/-- Lines 49-58 of `test_medium_configs.py`: `change_config_version`
computes the config-file path from the script directory and prints five
instruction lines describing a manual edit; it is returned here as the
unchanged state paired with the printed lines. -/
def change_config_version (version : Int) (scriptDir : String) (s : SysState) :
    SysState × List String :=
  let config_file := scriptDir ++ "/whisper-server/src/whisper_server/config.py"
  (s,
    ["設定バージョンを " ++ toString version ++ " に変更するには:",
     "1. " ++ config_file ++ " を開く",
     "2. CURRENT_MEDIUM_CONFIG_VERSION = " ++ toString version ++ " に変更",
     "3. ファイルを保存",
     "4. Pythonサーバーを再起動"])

end MediumConfigs

namespace CreateTestAudio

theorem pyInt_of_nonneg {x : ℝ} (h : 0 ≤ x) : pyInt x = ⌊x⌋ := if_pos h

theorem linspace_length (a b : ℝ) (num : ℕ) : (linspace a b num).length = num := by
  rw [linspace, List.length_map, List.length_range]

theorem rawAudio_length (sample_rate : ℕ) (duration frequency amplitude : ℝ) :
    (rawAudio sample_rate duration frequency amplitude).length =
      nSamples sample_rate duration := by
  simp [rawAudio, linspace_length]

theorem fadeIn_eq {xs : List ℝ} {f : ℕ} (h : f ≤ xs.length) :
    fadeIn xs f = some (fadeInList xs f) := by
  rw [fadeIn, if_pos (min_eq_left h).symm]

theorem fadeOut_eq {xs : List ℝ} {f : ℕ} (h0 : f ≠ 0) (h : f ≤ xs.length) :
    fadeOut xs f = some (fadeOutList xs f) := by
  rw [fadeOut]
  simp only [if_neg h0, min_eq_left h]
  rw [if_pos (by omega)]
  rfl

theorem fadeIn_zero (xs : List ℝ) : fadeIn xs 0 = some xs := by
  rw [fadeIn, if_pos (by simp)]
  simp [fadeInList, linspace]

theorem fadeOut_zero_of_ne_nil {xs : List ℝ} (h : xs ≠ []) : fadeOut xs 0 = none := by
  have hx : xs.length ≠ 0 := by simpa using h
  rw [fadeOut]
  simp [hx]

theorem fadeOut_nil_zero : fadeOut ([] : List ℝ) 0 = some [] := by
  rw [fadeOut]
  simp [linspace]

theorem fadeInList_length {xs : List ℝ} {f : ℕ} (h : f ≤ xs.length) :
    (fadeInList xs f).length = xs.length := by
  simp only [fadeInList, List.length_append, List.length_zipWith, List.length_take,
    List.length_drop, linspace_length]
  omega

theorem fadeOutList_length {xs : List ℝ} {f : ℕ} (h : f ≤ xs.length) :
    (fadeOutList xs f).length = xs.length := by
  simp only [fadeOutList, List.length_append, List.length_zipWith, List.length_take,
    List.length_drop, linspace_length]
  omega

theorem fadeIn_length {xs ys : List ℝ} {f : ℕ} (h : fadeIn xs f = some ys) :
    ys.length = xs.length := by
  rw [fadeIn] at h
  split_ifs at h with h1 h2
  · cases h
    exact fadeInList_length (by omega)
  · cases h
    rfl

theorem fadeOut_length {xs ys : List ℝ} {f : ℕ} (h : fadeOut xs f = some ys) :
    ys.length = xs.length := by
  by_cases hf : f = 0
  · subst hf
    rcases xs with _ | ⟨x, xs⟩
    · rw [fadeOut_nil_zero] at h
      cases h
      rfl
    · rw [fadeOut_zero_of_ne_nil (by simp)] at h
      cases h
  · by_cases hle : f ≤ xs.length
    · rw [fadeOut_eq hf hle] at h
      cases h
      exact fadeOutList_length hle
    · simp only [fadeOut] at h
      have hmin : min f xs.length = xs.length := by omega
      rw [if_neg hf, hmin, Nat.sub_self, Nat.sub_zero, if_neg (by omega)] at h
      split_ifs at h with h2
      · cases h
        rfl

theorem synthSamples_length {sr : ℕ} {dur fr amp fd : ℝ} {xs : List ℝ}
    (h : synthSamples sr dur fr amp fd = some xs) :
    xs.length = nSamples sr dur := by
  rw [synthSamples] at h
  cases hB : fadeIn (rawAudio sr dur fr amp) (fadeSamples fd sr) with
  | none =>
      rw [hB] at h
      cases h
  | some B =>
      rw [hB] at h
      have h2 : fadeOut B (fadeSamples fd sr) = some xs := h
      rw [fadeOut_length h2, fadeIn_length hB, rawAudio_length]

theorem synthSamples_eq (sr : ℕ) (dur fr amp fd : ℝ)
    (h0 : fadeSamples fd sr ≠ 0) (h : fadeSamples fd sr ≤ nSamples sr dur) :
    synthSamples sr dur fr amp fd =
      some (fadeOutList (fadeInList (rawAudio sr dur fr amp) (fadeSamples fd sr))
        (fadeSamples fd sr)) := by
  have hlen : fadeSamples fd sr ≤ (rawAudio sr dur fr amp).length := by
    rw [rawAudio_length]
    exact h
  have hlen2 : fadeSamples fd sr ≤
      (fadeInList (rawAudio sr dur fr amp) (fadeSamples fd sr)).length := by
    rw [fadeInList_length hlen]
    exact hlen
  rw [synthSamples, fadeIn_eq hlen]
  exact fadeOut_eq h0 hlen2

theorem synthSamples_sr_zero (dur fr amp fd : ℝ) :
    synthSamples 0 dur fr amp fd = some [] := by
  have hf : fadeSamples fd 0 = 0 := by
    simp [fadeSamples, pyInt]
  have hraw : rawAudio 0 dur fr amp = [] := by
    have hn : nSamples 0 dur = 0 := by
      simp [nSamples, pyInt]
    have := rawAudio_length 0 dur fr amp
    rw [hn] at this
    exact List.length_eq_zero.mp this
  rw [synthSamples, hf, hraw, fadeIn_zero]
  exact fadeOut_nil_zero

theorem synthSamples_small : synthSamples 1 (1/2) 440 (3/10) (1/8) = some [] := by
  have hf : fadeSamples (1/8) 1 = 0 := by
    have h1 : (1/8 : ℝ) * ((1 : ℕ) : ℝ) = 1/8 := by norm_num
    rw [fadeSamples, h1, pyInt_of_nonneg (by norm_num)]
    norm_num
  have hraw : rawAudio 1 (1/2) 440 (3/10) = [] := by
    have hn : nSamples 1 (1/2) = 0 := by
      have h1 : (((1 : ℕ)) : ℝ) * (1/2) = 1/2 := by norm_num
      rw [nSamples, h1, pyInt_of_nonneg (by norm_num)]
      norm_num
    have := rawAudio_length 1 (1/2) 440 (3/10)
    rw [hn] at this
    exact List.length_eq_zero.mp this
  rw [synthSamples, hf, hraw, fadeIn_zero]
  exact fadeOut_nil_zero

theorem linspace_getElem? {a b : ℝ} {num i : ℕ} (h : i < num) :
    (linspace a b num)[i]? = some (a + (b - a) * (i : ℝ) / ((num : ℝ) - 1)) := by
  rw [linspace, List.getElem?_map, List.getElem?_range h]
  rfl

theorem linspace_getD {a b : ℝ} {num i : ℕ} (h : i < num) :
    (linspace a b num).getD i 0 = a + (b - a) * (i : ℝ) / ((num : ℝ) - 1) := by
  rw [List.getD_eq_getElem?_getD, linspace_getElem? h, Option.getD_some]

theorem getElem?_eq_some_getD {xs : List ℝ} {i : ℕ} (h : i < xs.length) :
    xs[i]? = some (xs.getD i 0) := by
  rw [List.getElem?_eq_getElem h, List.getD_eq_getElem xs 0 h]

theorem fadeInList_getD {xs : List ℝ} {f i : ℕ} (hf : f ≤ xs.length) (hi : i < xs.length) :
    (fadeInList xs f).getD i 0 =
      if i < f then xs.getD i 0 * (linspace 0 1 f).getD i 0 else xs.getD i 0 := by
  have hzip : ((xs.take f).zipWith (fun a r => a * r) (linspace 0 1 f)).length = f := by
    simp only [List.length_zipWith, List.length_take, linspace_length]
    omega
  rw [fadeInList, List.getD_eq_getElem?_getD, List.getElem?_append, hzip]
  split_ifs with h
  · have hx : xs[i]? = some (xs.getD i 0) := getElem?_eq_some_getD hi
    have hr : (linspace 0 1 f)[i]? = some ((linspace 0 1 f).getD i 0) :=
      getElem?_eq_some_getD (by rw [linspace_length]; exact h)
    rw [List.getElem?_zipWith', List.getElem?_take, if_pos h, hx, hr]
    rfl
  · rw [List.getElem?_drop]
    have : f + (i - f) = i := by omega
    rw [this, ← List.getD_eq_getElem?_getD]

theorem fadeOutList_getD {xs : List ℝ} {f i : ℕ} (hf : f ≤ xs.length) (hi : i < xs.length) :
    (fadeOutList xs f).getD i 0 =
      if xs.length - f ≤ i then
        xs.getD i 0 * (linspace 1 0 f).getD (i - (xs.length - f)) 0
      else xs.getD i 0 := by
  have htake : (xs.take (xs.length - f)).length = xs.length - f := by
    simp only [List.length_take]
    omega
  rw [fadeOutList, List.getD_eq_getElem?_getD, List.getElem?_append, htake]
  split_ifs with h h2
  · omega
  · rw [List.getElem?_take, if_pos h, ← List.getD_eq_getElem?_getD]
  · have hj : i - (xs.length - f) < f := by omega
    have hx : (xs.drop (xs.length - f))[i - (xs.length - f)]? = some (xs.getD i 0) := by
      rw [List.getElem?_drop]
      have : xs.length - f + (i - (xs.length - f)) = i := by omega
      rw [this]
      exact getElem?_eq_some_getD hi
    have hr : (linspace 1 0 f)[i - (xs.length - f)]? =
        some ((linspace 1 0 f).getD (i - (xs.length - f)) 0) :=
      getElem?_eq_some_getD (by rw [linspace_length]; exact hj)
    rw [List.getElem?_zipWith', hx, hr]
    rfl
  · omega

theorem synthSamples_getD {sr : ℕ} {dur fr amp fd : ℝ}
    (h0 : fadeSamples fd sr ≠ 0) (h2f : 2 * fadeSamples fd sr ≤ nSamples sr dur)
    {xs : List ℝ} (hxs : synthSamples sr dur fr amp fd = some xs)
    {i : ℕ} (hi : i < nSamples sr dur) :
    xs.getD i 0 =
      if i < fadeSamples fd sr then
        (rawAudio sr dur fr amp).getD i 0 * (linspace 0 1 (fadeSamples fd sr)).getD i 0
      else if nSamples sr dur - fadeSamples fd sr ≤ i then
        (rawAudio sr dur fr amp).getD i 0 *
          (linspace 1 0 (fadeSamples fd sr)).getD
            (i - (nSamples sr dur - fadeSamples fd sr)) 0
      else
        (rawAudio sr dur fr amp).getD i 0 := by
  have hfn : fadeSamples fd sr ≤ nSamples sr dur := by omega
  rw [synthSamples_eq sr dur fr amp fd h0 hfn] at hxs
  cases hxs
  have hA : (rawAudio sr dur fr amp).length = nSamples sr dur := rawAudio_length sr dur fr amp
  have hB : (fadeInList (rawAudio sr dur fr amp) (fadeSamples fd sr)).length =
      nSamples sr dur := by
    rw [fadeInList_length (by rw [hA]; exact hfn)]
    exact hA
  rw [fadeOutList_getD (by rw [hB]; exact hfn) (by rw [hB]; exact hi), hB,
    fadeInList_getD (by rw [hA]; exact hfn) (by rw [hA]; exact hi)]
  split_ifs with ho hin hin <;> first | rfl | omega

theorem rawAudio_getD {sr : ℕ} {dur fr amp : ℝ} {i : ℕ} (h : i < nSamples sr dur) :
    (rawAudio sr dur fr amp).getD i 0 =
      amp * Real.sin (2 * Real.pi * fr *
        (0 + (dur - 0) * (i : ℝ) / ((nSamples sr dur : ℝ) - 1))) := by
  rw [rawAudio, List.getD_eq_getElem?_getD, List.getElem?_map, linspace_getElem? h]
  rfl

theorem rawAudio_getD_bound {sr : ℕ} {dur fr amp : ℝ} (hamp : 0 ≤ amp) {i : ℕ}
    (h : i < nSamples sr dur) :
    |(rawAudio sr dur fr amp).getD i 0| ≤ amp := by
  rw [rawAudio_getD h, abs_mul, abs_of_nonneg hamp]
  calc amp * |Real.sin (2 * Real.pi * fr *
        (0 + (dur - 0) * (i : ℝ) / ((nSamples sr dur : ℝ) - 1)))| ≤ amp * 1 :=
        mul_le_mul_of_nonneg_left (Real.abs_sin_le_one _) hamp
    _ = amp := mul_one amp

theorem linspace_getD_unit {a b : ℝ} (ha0 : 0 ≤ a) (ha1 : a ≤ 1) (hb0 : 0 ≤ b)
    (hb1 : b ≤ 1) {num i : ℕ} (h : i < num) :
    0 ≤ (linspace a b num).getD i 0 ∧ (linspace a b num).getD i 0 ≤ 1 := by
  rw [linspace_getD h]
  by_cases h1 : num = 1
  · subst h1
    have hi0 : i = 0 := by omega
    subst hi0
    norm_num
    exact ⟨ha0, ha1⟩
  · have hnum2 : 2 ≤ num := by omega
    have hden : (0 : ℝ) < (num : ℝ) - 1 := by
      have : (2 : ℝ) ≤ (num : ℝ) := by exact_mod_cast hnum2
      linarith
    have hi1 : (i : ℝ) + 1 ≤ (num : ℝ) := by exact_mod_cast Nat.succ_le_of_lt h
    set t : ℝ := (i : ℝ) / ((num : ℝ) - 1) with ht
    have ht0 : 0 ≤ t := div_nonneg (Nat.cast_nonneg i) hden.le
    have ht1 : t ≤ 1 := by
      rw [ht, div_le_one hden]
      linarith
    have hkey : a + (b - a) * (i : ℝ) / ((num : ℝ) - 1) = a * (1 - t) + b * t := by
      rw [ht]
      field_simp
      ring
    rw [hkey]
    constructor
    · have p1 : 0 ≤ a * (1 - t) := mul_nonneg ha0 (by linarith)
      have p2 : 0 ≤ b * t := mul_nonneg hb0 ht0
      linarith
    · have p1 : a * (1 - t) ≤ 1 * (1 - t) := mul_le_mul_of_nonneg_right ha1 (by linarith)
      have p2 : b * t ≤ 1 * t := mul_le_mul_of_nonneg_right hb1 ht0
      linarith

theorem two_fadeSamples_le {sr : ℕ} {dur fd : ℝ} (hdur : 0 ≤ dur) (hfd0 : 0 ≤ fd)
    (hfd : fd ≤ dur / 2) :
    2 * fadeSamples fd sr ≤ nSamples sr dur := by
  have hx : (0 : ℝ) ≤ fd * (sr : ℝ) := mul_nonneg hfd0 (Nat.cast_nonneg sr)
  have hy : (0 : ℝ) ≤ (sr : ℝ) * dur := mul_nonneg (Nat.cast_nonneg sr) hdur
  rw [fadeSamples, nSamples, pyInt_of_nonneg hx, pyInt_of_nonneg hy]
  have hfl0 : 0 ≤ ⌊fd * (sr : ℝ)⌋ := Int.floor_nonneg.2 hx
  have hfloor : 2 * ⌊fd * (sr : ℝ)⌋ ≤ ⌊(sr : ℝ) * dur⌋ := by
    apply Int.le_floor.2
    have h1 : (⌊fd * (sr : ℝ)⌋ : ℝ) ≤ fd * (sr : ℝ) := Int.floor_le _
    have h2 : 2 * (fd * (sr : ℝ)) ≤ (sr : ℝ) * dur := by
      have h3 : fd * (sr : ℝ) ≤ dur / 2 * (sr : ℝ) :=
        mul_le_mul_of_nonneg_right hfd (Nat.cast_nonneg sr)
      nlinarith
    push_cast
    linarith
  omega

theorem synthSamples_fade_zero {sr : ℕ} {dur fr amp fd : ℝ}
    (h0 : fadeSamples fd sr = 0) (hn : nSamples sr dur ≠ 0) :
    synthSamples sr dur fr amp fd = none := by
  rw [synthSamples, h0, fadeIn_zero]
  show fadeOut (rawAudio sr dur fr amp) 0 = none
  apply fadeOut_zero_of_ne_nil
  intro hnil
  apply hn
  rw [← rawAudio_length sr dur fr amp, hnil]
  rfl

theorem synthSamples_getD_bound {sr : ℕ} {dur fr amp fd : ℝ} (hamp : 0 ≤ amp)
    (h2f : 2 * fadeSamples fd sr ≤ nSamples sr dur)
    {xs : List ℝ} (hxs : synthSamples sr dur fr amp fd = some xs)
    {i : ℕ} (hi : i < nSamples sr dur) :
    |xs.getD i 0| ≤ amp := by
  by_cases h0 : fadeSamples fd sr = 0
  · exact absurd hxs (by rw [synthSamples_fade_zero h0 (by omega)]; exact fun h => by cases h)
  · rw [synthSamples_getD h0 h2f hxs hi]
    have hraw := @rawAudio_getD_bound sr dur fr amp hamp i hi
    split_ifs with hin hout
    · have hr := linspace_getD_unit le_rfl zero_le_one zero_le_one le_rfl hin
      rw [abs_mul]
      calc |(rawAudio sr dur fr amp).getD i 0| *
            |(linspace 0 1 (fadeSamples fd sr)).getD i 0| ≤ amp * 1 := by
            apply mul_le_mul hraw _ (abs_nonneg _) hamp
            rw [abs_of_nonneg hr.1]
            exact hr.2
        _ = amp := mul_one amp
    · have hj : i - (nSamples sr dur - fadeSamples fd sr) < fadeSamples fd sr := by omega
      have hr := linspace_getD_unit zero_le_one le_rfl le_rfl zero_le_one hj
      rw [abs_mul]
      calc |(rawAudio sr dur fr amp).getD i 0| *
            |(linspace 1 0 (fadeSamples fd sr)).getD
              (i - (nSamples sr dur - fadeSamples fd sr)) 0| ≤ amp * 1 := by
            apply mul_le_mul hraw _ (abs_nonneg _) hamp
            rw [abs_of_nonneg hr.1]
            exact hr.2
        _ = amp := mul_one amp
    · exact hraw

theorem nSamples_spec : nSamples 44100 5.0 = 220500 := by
  have : ((44100 : ℕ) : ℝ) * 5.0 = 220500 := by norm_num
  rw [nSamples, this, pyInt_of_nonneg (by norm_num)]
  norm_num
  rfl

theorem fadeSamples_spec : fadeSamples 0.1 44100 = 4410 := by
  have : (0.1 : ℝ) * ((44100 : ℕ) : ℝ) = 4410 := by norm_num
  rw [fadeSamples, this, pyInt_of_nonneg (by norm_num)]
  norm_num
  rfl

theorem fadeSamples_half_two : fadeSamples (1/2) 2 = 1 := by
  have : (1/2 : ℝ) * ((2 : ℕ) : ℝ) = 1 := by norm_num
  rw [fadeSamples, this, pyInt_of_nonneg (by norm_num)]
  norm_num

theorem nSamples_two_nine_fifths : nSamples 2 (9/5) = 3 := by
  have : ((2 : ℕ) : ℝ) * (9/5) = 18/5 := by norm_num
  rw [nSamples, this, pyInt_of_nonneg (by norm_num)]
  norm_num
  rfl

/-- Claim C4: for every valid parameter set, every sample of the
synthesized waveform lies in the closed interval
[-amplitude_scale, amplitude_scale]; equivalently the maximum absolute
sample value is at most amplitude_scale. -/
theorem c4_amplitude_bound (sample_rate : ℕ)
    (duration frequency amplitude fade_seconds : ℝ)
    (hsr : 0 < sample_rate) (hdur : 0 < duration) (hfr : 0 < frequency)
    (hamp : 0 < amplitude) (hamp1 : amplitude ≤ 1)
    (hfd0 : 0 ≤ fade_seconds) (hfd : fade_seconds ≤ duration / 2)
    (xs : List ℝ)
    (hxs : synthSamples sample_rate duration frequency amplitude fade_seconds = some xs) :
    ∀ x ∈ xs, |x| ≤ amplitude ∧ -amplitude ≤ x ∧ x ≤ amplitude := by
  intro x hx
  obtain ⟨i, hi, rfl⟩ := List.mem_iff_getElem.mp hx
  have hlen := synthSamples_length hxs
  have h2f := @two_fadeSamples_le sample_rate duration fade_seconds hdur.le hfd0 hfd
  have hb := synthSamples_getD_bound hamp.le h2f hxs
    (i := i) (by rw [← hlen]; exact hi)
  rw [List.getD_eq_getElem xs 0 hi] at hb
  exact ⟨hb, (abs_le.mp hb).1, (abs_le.mp hb).2⟩

theorem c4_witness :
    (0 : ℝ) < 3/10 ∧
      ∀ x ∈ ([] : List ℝ), |x| ≤ (3/10 : ℝ) ∧ -(3/10 : ℝ) ≤ x ∧ x ≤ (3/10 : ℝ) :=
  ⟨by norm_num,
    c4_amplitude_bound 1 (1/2) 440 (3/10) (1/8) (by norm_num) (by norm_num)
      (by norm_num) (by norm_num) (by norm_num) (by norm_num) (by norm_num)
      [] synthSamples_small⟩

/-- Claim C3 counterexample: at the valid parameter set sample_rate = 2,
duration_seconds = 9/5, frequency_hz = 440, amplitude_scale = 3/10,
fade_seconds = 1/2, the synthesized waveform has 3 samples while
round(sample_rate * duration_seconds) = round(3.6) = 4: the code uses
`int(...)` truncation, not rounding. -/
theorem c3_counterexample :
    Option.map List.length (synthSamples 2 (9/5) 440 (3/10) (1/2)) = some 3 ∧
      round (((2 : ℕ) : ℝ) * (9/5)) = 4 := by
  constructor
  · have h0 : fadeSamples (1/2) 2 ≠ 0 := by
      rw [fadeSamples_half_two]
      norm_num
    have hle : fadeSamples (1/2) 2 ≤ nSamples 2 (9/5) := by
      rw [fadeSamples_half_two, nSamples_two_nine_fifths]
      norm_num
    have hxs := synthSamples_eq 2 (9/5) 440 (3/10) (1/2) h0 hle
    rw [hxs, Option.map_some', synthSamples_length hxs, nSamples_two_nine_fifths]
  · have : ((2 : ℕ) : ℝ) * (9/5) = 18/5 := by norm_num
    rw [this]
    norm_num [round_eq]

/-- Claim C3 (amended): for every valid parameter set, the number of
samples in the synthesized waveform equals the floor (Python `int`
truncation) of sample_rate * duration_seconds — not its rounding. -/
theorem c3_amended_sample_count (sample_rate : ℕ)
    (duration frequency amplitude fade_seconds : ℝ)
    (hsr : 0 < sample_rate) (hdur : 0 < duration)
    (xs : List ℝ)
    (hxs : synthSamples sample_rate duration frequency amplitude fade_seconds = some xs) :
    xs.length = (⌊(sample_rate : ℝ) * duration⌋).toNat := by
  rw [synthSamples_length hxs, nSamples,
    pyInt_of_nonneg (mul_nonneg (Nat.cast_nonneg sample_rate) hdur.le)]

theorem c3_amended_witness :
    ([] : List ℝ).length = (⌊((1 : ℕ) : ℝ) * (1/2)⌋).toNat :=
  c3_amended_sample_count 1 (1/2) 440 (3/10) (1/8) (by norm_num) (by norm_num)
    [] synthSamples_small

/-- Claim C8: synthesis is deterministic and side-effect free — two runs
of `synthSamples` with identical arguments produce the same sample list,
hence sample sequences equal element by element within tolerance 1e-9. -/
theorem c8_deterministic (sample_rate : ℕ)
    (duration frequency amplitude fade_seconds : ℝ) (xs ys : List ℝ)
    (h1 : synthSamples sample_rate duration frequency amplitude fade_seconds = some xs)
    (h2 : synthSamples sample_rate duration frequency amplitude fade_seconds = some ys) :
    xs = ys ∧ ∀ i : ℕ, |xs.getD i 0 - ys.getD i 0| ≤ 1 / 1000000000 := by
  have hxy : xs = ys := by
    rw [h1] at h2
    exact Option.some.inj h2
  subst hxy
  refine ⟨rfl, fun i => ?_⟩
  simp

theorem c8_witness :
    ([] : List ℝ) = ([] : List ℝ) ∧
      ∀ i : ℕ, |([] : List ℝ).getD i 0 - ([] : List ℝ).getD i 0| ≤ 1 / 1000000000 :=
  c8_deterministic 1 (1/2) 440 (3/10) (1/8) [] [] synthSamples_small synthSamples_small

/-- Claim C6 counterexample: with sample_rate = 0 (and otherwise the
script's parameters) the code does not fail at all — there is no parameter
validation; the synthesis succeeds and returns the empty sample list. -/
theorem c6_counterexample : synthSamples 0 5.0 440 0.3 0.1 = some [] :=
  synthSamples_sr_zero 5.0 440 0.3 0.1

/-- Claim C6 (amended): the code performs no parameter validation; for
sample_rate = 0 and arbitrary remaining parameters, synthesis does not
fail with any error — it returns the empty waveform, and no non-empty
artifact is produced. -/
theorem c6_amended_no_validation (duration frequency amplitude fade_seconds : ℝ) :
    synthSamples 0 duration frequency amplitude fade_seconds = some [] :=
  synthSamples_sr_zero duration frequency amplitude fade_seconds

/-- Claim C9: contrary to the spec, `fade_seconds = 0` does not leave the
waveform unmodified: `fade_samples = 0` makes line 27 multiply the whole
array (`audio_data[-0:]` is `audio_data[0:]`) by an empty ramp, a numpy
broadcast `ValueError`; with the script's other parameters the call
crashes instead of returning the raw sine wave. -/
theorem c9_fade_zero_crashes : synthSamples 44100 5.0 440 0.3 0 = none := by
  apply synthSamples_fade_zero
  · have : (0 : ℝ) * ((44100 : ℕ) : ℝ) = 0 := by norm_num
    rw [fadeSamples, this, pyInt_of_nonneg le_rfl]
    norm_num
  · rw [nSamples_spec]
    norm_num

theorem fadeSamples_c5 : fadeSamples (251/10000) 100 = 2 := by
  have : (251/10000 : ℝ) * ((100 : ℕ) : ℝ) = 251/100 := by norm_num
  rw [fadeSamples, this, pyInt_of_nonneg (by norm_num)]
  norm_num
  rfl

theorem nSamples_c5 : nSamples 100 1 = 100 := by
  have : ((100 : ℕ) : ℝ) * 1 = 100 := by norm_num
  rw [nSamples, this, pyInt_of_nonneg (by norm_num)]
  norm_num
  rfl

theorem rawAudio_c5_one : (rawAudio 100 1 (99/4) (3/10)).getD 1 0 = 3/10 := by
  rw [rawAudio_getD (by rw [nSamples_c5]; norm_num), nSamples_c5]
  have harg : 2 * Real.pi * (99/4) *
      (0 + ((1 : ℝ) - 0) * ((1 : ℕ) : ℝ) / (((100 : ℕ) : ℝ) - 1)) = Real.pi / 2 := by
    push_cast
    ring
  rw [harg, Real.sin_pi_div_two]
  norm_num

/-- Claim C5 counterexample: at the valid parameter set sample_rate = 100,
duration_seconds = 1, frequency_hz = 99/4, amplitude_scale = 3/10,
fade_seconds = 0.0251, the code's fade length int(2.51) = 2 differs from
the claim's f = round(2.51) = 3, and the waveform's sample 1 equals 3/10
(the code's length-2 ramp leaves it unscaled, and sin there is exactly 1),
while the claim's length-3 ramp from 0.0 to 1.0 would scale it to
3/10 * 1/2 = 3/20 — so the claim, with f fixed as the rounding, is false
of the program. -/
theorem c5_counterexample :
    fadeSamples (251/10000) 100 = 2 ∧
      round ((251/10000 : ℝ) * ((100 : ℕ) : ℝ)) = 3 ∧
      Option.map (fun xs => xs.getD 1 0)
          (synthSamples 100 1 (99/4) (3/10) (251/10000)) = some (3/10) ∧
      (rawAudio 100 1 (99/4) (3/10)).getD 1 0 * (linspace 0 1 3).getD 1 0 = 3/20 ∧
      (3/10 : ℝ) ≠ 3/20 := by
  have h0 : fadeSamples (251/10000) 100 ≠ 0 := by
    rw [fadeSamples_c5]
    norm_num
  have h2f : 2 * fadeSamples (251/10000) 100 ≤ nSamples 100 1 := by
    rw [fadeSamples_c5, nSamples_c5]
    norm_num
  have hxs := synthSamples_eq 100 1 (99/4) (3/10) (251/10000) h0 (by omega)
  refine ⟨fadeSamples_c5, ?_, ?_, ?_, by norm_num⟩
  · have : (251/10000 : ℝ) * ((100 : ℕ) : ℝ) = 251/100 := by norm_num
    rw [this]
    norm_num [round_eq]
  · rw [hxs, Option.map_some']
    have h := synthSamples_getD h0 h2f hxs (i := 1) (by rw [nSamples_c5]; norm_num)
    rw [h, if_pos (by rw [fadeSamples_c5]; norm_num), fadeSamples_c5, rawAudio_c5_one,
      linspace_getD (by norm_num : (1 : ℕ) < 2)]
    norm_num
  · rw [rawAudio_c5_one, linspace_getD (by norm_num : (1 : ℕ) < 3)]
    norm_num

/-- Claim C5 (amended): the fade length the code uses is
f = int(fade_seconds * sample_rate) (Python truncation), not the rounding.
For every valid parameter set with positive fade length
f = int(fade_seconds * sample_rate), the synthesized waveform is the raw
sine sequence with its first f samples multiplied pointwise by the linear
ramp from 0.0 to 1.0 (length f, endpoints inclusive), its last f samples
multiplied pointwise by the linear ramp from 1.0 to 0.0 (length f,
endpoints inclusive), and every sample strictly between the two fade
windows left unscaled. -/
theorem c5_fade_structure (sample_rate : ℕ)
    (duration frequency amplitude fade_seconds : ℝ)
    (hsr : 0 < sample_rate) (hdur : 0 < duration) (hfr : 0 < frequency)
    (hamp : 0 < amplitude) (hamp1 : amplitude ≤ 1)
    (hfd0 : 0 ≤ fade_seconds) (hfd : fade_seconds ≤ duration / 2)
    (hf : 0 < fadeSamples fade_seconds sample_rate) :
    ∃ xs, synthSamples sample_rate duration frequency amplitude fade_seconds = some xs ∧
      xs.length = nSamples sample_rate duration ∧
      ∀ i < nSamples sample_rate duration,
        xs.getD i 0 =
          if i < fadeSamples fade_seconds sample_rate then
            (rawAudio sample_rate duration frequency amplitude).getD i 0 *
              (linspace 0 1 (fadeSamples fade_seconds sample_rate)).getD i 0
          else if nSamples sample_rate duration - fadeSamples fade_seconds sample_rate ≤ i then
            (rawAudio sample_rate duration frequency amplitude).getD i 0 *
              (linspace 1 0 (fadeSamples fade_seconds sample_rate)).getD
                (i - (nSamples sample_rate duration - fadeSamples fade_seconds sample_rate)) 0
          else
            (rawAudio sample_rate duration frequency amplitude).getD i 0 := by
  have h2f := @two_fadeSamples_le sample_rate duration fade_seconds hdur.le hfd0 hfd
  have h0 : fadeSamples fade_seconds sample_rate ≠ 0 := by omega
  have hxs := synthSamples_eq sample_rate duration frequency amplitude fade_seconds
    h0 (by omega)
  exact ⟨_, hxs, synthSamples_length hxs, fun i hi => synthSamples_getD h0 h2f hxs hi⟩

theorem c5_witness :
    ∃ xs, synthSamples 2 1 440 (3/10) (1/2) = some xs ∧
      xs.length = nSamples 2 1 ∧
      ∀ i < nSamples 2 1,
        xs.getD i 0 =
          if i < fadeSamples (1/2) 2 then
            (rawAudio 2 1 440 (3/10)).getD i 0 *
              (linspace 0 1 (fadeSamples (1/2) 2)).getD i 0
          else if nSamples 2 1 - fadeSamples (1/2) 2 ≤ i then
            (rawAudio 2 1 440 (3/10)).getD i 0 *
              (linspace 1 0 (fadeSamples (1/2) 2)).getD
                (i - (nSamples 2 1 - fadeSamples (1/2) 2)) 0
          else
            (rawAudio 2 1 440 (3/10)).getD i 0 :=
  c5_fade_structure 2 1 440 (3/10) (1/2) (by norm_num) (by norm_num) (by norm_num)
    (by norm_num) (by norm_num) (by norm_num) (by norm_num)
    (by rw [fadeSamples_half_two]; norm_num)

theorem linspace01_first : (linspace 0 1 4410).getD 0 0 = 0 := by
  rw [linspace_getD (by norm_num)]
  norm_num

theorem linspace10_last : (linspace 1 0 4410).getD 4409 0 = 0 := by
  rw [linspace_getD (by norm_num)]
  norm_num

/-- Claim C1: for the parameter set hard-coded in `create_test_audio`
(sample_rate 44100, duration 5.0 s, frequency 440 Hz, amplitude 0.3,
fade 0.1 s) the synthesized waveform has exactly 220500 samples, its
first and last samples equal 0.0, and every sample is at most 0.3 in
absolute value. -/
theorem c1_script_waveform :
    ∃ xs, scriptSamples = some xs ∧ xs.length = 220500 ∧
      xs.getD 0 0 = 0 ∧ xs.getD 220499 0 = 0 ∧ ∀ x ∈ xs, |x| ≤ 0.3 := by
  have h0 : fadeSamples 0.1 44100 ≠ 0 := by
    rw [fadeSamples_spec]
    norm_num
  have h2f : 2 * fadeSamples 0.1 44100 ≤ nSamples 44100 5.0 := by
    rw [fadeSamples_spec, nSamples_spec]
    norm_num
  obtain ⟨xs, hxs⟩ : ∃ xs, synthSamples 44100 5.0 440 0.3 0.1 = some xs :=
    ⟨_, synthSamples_eq 44100 5.0 440 0.3 0.1 h0 (by omega)⟩
  have hlen : xs.length = 220500 := by
    rw [synthSamples_length hxs, nSamples_spec]
  refine ⟨xs, hxs, hlen, ?_, ?_, ?_⟩
  · have h := synthSamples_getD h0 h2f hxs (i := 0) (by rw [nSamples_spec]; norm_num)
    rw [h, if_pos (by rw [fadeSamples_spec]; norm_num), fadeSamples_spec,
      linspace01_first, mul_zero]
  · have h := synthSamples_getD h0 h2f hxs (i := 220499)
      (by rw [nSamples_spec]; norm_num)
    rw [h, if_neg (by rw [fadeSamples_spec]; norm_num),
      if_pos (by rw [fadeSamples_spec, nSamples_spec]; norm_num),
      fadeSamples_spec, nSamples_spec]
    have harith : 220499 - (220500 - 4410) = 4409 := by norm_num
    rw [harith, linspace10_last, mul_zero]
  · intro x hx
    obtain ⟨i, hi, rfl⟩ := List.mem_iff_getElem.mp hx
    have hb := synthSamples_getD_bound (by norm_num : (0 : ℝ) ≤ 0.3) h2f hxs
      (i := i) (by rw [nSamples_spec, ← hlen]; exact hi)
    rw [List.getD_eq_getElem xs 0 hi] at hb
    exact hb

end CreateTestAudio

namespace FileOps

theorem not_mem_unlink_self {tmp : String} {fs : List String} (hfs : tmp ∉ fs) :
    tmp ∉ unlinkFile tmp (createFile tmp fs) := by
  rw [createFile, if_neg hfs, unlinkFile, List.erase_cons_head]
  exact hfs

theorem not_mem_unlink_create {tmp q : String} {fs : List String}
    (hfs : tmp ∉ fs) (hq : tmp ≠ q) :
    tmp ∉ unlinkFile tmp (createFile q (createFile tmp fs)) := by
  have hcf : createFile tmp fs = tmp :: fs := by rw [createFile, if_neg hfs]
  rw [hcf, createFile]
  split_ifs with hmem
  · rw [unlinkFile, List.erase_cons_head]
    exact hfs
  · rw [unlinkFile, List.erase_cons_tail (by simpa using hq.symm), List.erase_cons_head]
    intro h
    rcases List.mem_cons.mp h with h1 | h1
    · exact hq h1
    · exact hfs h1

/-- Claim C2 counterexample: when the encoder exits with non-zero status
(`subprocess.CalledProcessError`), the caller receives `None` — no PCM
artifact path — contradicting the claim that every encoder failure hands
the caller the uncompressed artifact's path. -/
theorem c2_counterexample :
    (create_test_audio_files .encoderNonZeroExit "C:/tmp/tmp123.wav" []).1 =
      Outcome.ret none := rfl

/-- Claim C2 (amended): no encoder failure raises a fatal error, but only
the encoder-binary-missing failure hands the caller the uncompressed WAV
artifact's path; a non-zero encoder exit makes the operation return
`None`, i.e. no artifact path at all. -/
theorem c2_amended_fallback (tempWavPath : String) (fs : List String) :
    (create_test_audio_files .encoderMissingCopyOk tempWavPath fs).1 =
        Outcome.ret (some wavPath) ∧
      (create_test_audio_files .encoderNonZeroExit tempWavPath fs).1 =
        Outcome.ret none ∧
      (create_test_audio_files .encoderMissingCopyOk tempWavPath fs).1 ≠
        Outcome.raised ∧
      (create_test_audio_files .encoderNonZeroExit tempWavPath fs).1 ≠
        Outcome.raised :=
  ⟨rfl, rfl, fun h => Outcome.noConfusion h, fun h => Outcome.noConfusion h⟩

/-- Claim C7 counterexample: when the temporary-WAV write itself fails (an
error during the writes), the exception propagates from before the
`try/finally`, and the temporary file is still on disk at that exit. -/
theorem c7_counterexample :
    (create_test_audio_files .tempWriteFails "C:/tmp/tmp123.wav" []).1 =
        Outcome.raised ∧
      "C:/tmp/tmp123.wav" ∈
        (create_test_audio_files .tempWriteFails "C:/tmp/tmp123.wav" []).2 := by
  refine ⟨rfl, ?_⟩
  show "C:/tmp/tmp123.wav" ∈ createFile "C:/tmp/tmp123.wav" []
  simp [createFile]

/-- Claim C7 (amended): on every exit path that reaches the `try` block —
encoder success, encoder non-zero exit, encoder binary missing with the
fallback copy succeeding or failing — the temporary PCM file is removed
before the operation exits; only a failure of the initial temporary write
itself, which happens before the `try/finally`, leaves the temporary file
on disk. -/
theorem c7_amended_cleanup (ev : RunEvent) (tempWavPath : String) (fs : List String)
    (hev : ev ≠ RunEvent.tempWriteFails) (hfs : tempWavPath ∉ fs)
    (hwebm : tempWavPath ≠ webmPath) (hwav : tempWavPath ≠ wavPath) :
    tempWavPath ∉ (create_test_audio_files ev tempWavPath fs).2 := by
  cases ev with
  | tempWriteFails => exact absurd rfl hev
  | encoderSuccess => exact not_mem_unlink_create hfs hwebm
  | encoderNonZeroExit => exact not_mem_unlink_self hfs
  | encoderMissingCopyOk => exact not_mem_unlink_create hfs hwav
  | encoderMissingCopyFails => exact not_mem_unlink_create hfs hwav

theorem c7_witness :
    RunEvent.encoderSuccess ≠ RunEvent.tempWriteFails ∧
      "C:/tmp/tmp123.wav" ∉ ([] : List String) ∧
      "C:/tmp/tmp123.wav" ∉
        (create_test_audio_files .encoderSuccess "C:/tmp/tmp123.wav" []).2 :=
  ⟨by decide, by simp,
    c7_amended_cleanup .encoderSuccess "C:/tmp/tmp123.wav" [] (by decide)
      (by simp) (by decide) (by decide)⟩

end FileOps

namespace MediumConfigs

/-- Claim C10: `change_config_version` modifies no state — for every
version argument, script directory, and starting state it leaves the
filesystem and `CURRENT_MEDIUM_CONFIG_VERSION` exactly as they were, and
only returns the instruction lines describing a manual edit. -/
theorem c10_frame (version : Int) (scriptDir : String) (s : SysState) :
    (change_config_version version scriptDir s).1 = s ∧
      (change_config_version version scriptDir s).1.files = s.files ∧
      (change_config_version version scriptDir s).1.currentMediumConfigVersion =
        s.currentMediumConfigVersion ∧
      (change_config_version version scriptDir s).2 =
        ["設定バージョンを " ++ toString version ++ " に変更するには:",
         "1. " ++ (scriptDir ++ "/whisper-server/src/whisper_server/config.py") ++
           " を開く",
         "2. CURRENT_MEDIUM_CONFIG_VERSION = " ++ toString version ++ " に変更",
         "3. ファイルを保存",
         "4. Pythonサーバーを再起動"] :=
  ⟨rfl, rfl, rfl, rfl⟩

end MediumConfigs
